import Mathlib

/-
Verification of the HTTP-request assertion engine of the cursor-toys
repository: the annotation extractor (parseAssertionLine, parseExpectedValue,
removeAssertionBlocks), the expression resolver and operator evaluator
(resolveExpression, evaluateOperator, evaluateAssertion, validateAssertions,
parseResponseBody) and the result formatter (formatAssertionResults,
formatValue).  JavaScript runtime values are modelled by the inductive
`JsValue`; JS numbers are modelled by exact rationals (the program only
manipulates decimal literals and JSON numbers, where float rounding plays no
role in any property considered here); host primitives used by the code
(JSON.parse, JSON.stringify, RegExp, String.prototype.trim, the regex
matching of String.prototype.match) are embedded as executable Lean
functions faithful to their ECMAScript semantics on the fragment the
program exercises.
-/

namespace CursorToys

/-- Model of a JavaScript runtime value as used by the assertion engine:
`null` and `undefined` are distinct; numbers are exact rationals; `regexp`
records the pattern and flag strings of a RegExp object. -/
inductive JsValue where
  | null
  | undefined
  | bool (b : Bool)
  | num (q : ℚ)
  | str (s : String)
  | arr (elems : List JsValue)
  | obj (fields : List (String × JsValue))
  | regexp (pattern : String) (flags : String)
  deriving Repr

/-- The whitespace class of ECMAScript (`\s`, `String.prototype.trim`),
restricted to the ASCII characters that can occur in this program's inputs. -/
def isJsWs (c : Char) : Bool :=
  c = ' ' || c = '\t' || c = '\n' || c = '\r' || c = '\x0b' || c = '\x0c'

/-- `String.prototype.trim` on a character list: drop leading and trailing
whitespace. -/
def jsTrimL (cs : List Char) : List Char :=
  ((cs.dropWhile isJsWs).reverse.dropWhile isJsWs).reverse

/-- `String.prototype.trim`. -/
def jsTrim (s : String) : String :=
  ⟨jsTrimL s.data⟩

/-- JS strict equality (`===`) as used by this program.  On primitives it is
structural; on objects, arrays and RegExp values `===` is reference equality,
and in this program the two operands of every comparison originate from
distinct allocations (one from parsing the response body or the response
structure, the other from the expected-value literal parser), so it is
modelled as `false` there. -/
def jsStrictEq : JsValue → JsValue → Bool
  | .null, .null => true
  | .undefined, .undefined => true
  | .bool a, .bool b => a == b
  | .num a, .num b => a == b
  | .str a, .str b => a == b
  | _, _ => false

/-- JS truthiness (`!!v`): `false`, `0`, the empty string, `null` and
`undefined` are falsy; every object, array or RegExp is truthy. -/
def jsTruthy : JsValue → Bool
  | .null => false
  | .undefined => false
  | .bool b => b
  | .num q => q != 0
  | .str s => s != ""
  | .arr _ => true
  | .obj _ => true
  | .regexp _ _ => true

/-! ### JSON (model of the host's JSON.parse, used by parseResponseBody,
parseExpectedValue and the isJson operator) -/

/-- The opening-brace character (written by code point to keep brace
characters out of literals). -/
def braceL : Char := Char.ofNat 123

/-- The closing-brace character. -/
def braceR : Char := Char.ofNat 125

/-- JSON insignificant whitespace (exactly the four characters JSON.parse
skips between tokens). -/
def isJsonWs (c : Char) : Bool :=
  c = ' ' || c = '\t' || c = '\n' || c = '\r'

/-- Skip JSON whitespace. -/
def jsonSkipWs (s : List Char) : List Char := s.dropWhile isJsonWs

/-- Numeric value of a decimal digit run. -/
def digitsToNat (cs : List Char) : Nat :=
  cs.foldl (fun n c => 10 * n + (c.toNat - '0'.toNat)) 0

/-- Numeric value of a hexadecimal digit, if any. -/
def hexDigitVal (c : Char) : Option Nat :=
  if '0' ≤ c ∧ c ≤ '9' then some (c.toNat - '0'.toNat)
  else if 'a' ≤ c ∧ c ≤ 'f' then some (c.toNat - 'a'.toNat + 10)
  else if 'A' ≤ c ∧ c ≤ 'F' then some (c.toNat - 'A'.toNat + 10)
  else none

/-- Parse a JSON number (grammar `-?(0|[1-9][0-9]*)(\.[0-9]+)?([eE][+-]?[0-9]+)?`)
from the head of the input, returning its exact rational value and the rest. -/
def jsonParseNumber (s : List Char) : Option (ℚ × List Char) :=
  let (neg, s1) := match s with
    | '-' :: t => (true, t)
    | _ => (false, s)
  let intPart : Option (Nat × List Char) := match s1 with
    | '0' :: t => some (0, t)
    | c :: t =>
        if c.isDigit ∧ c ≠ '0' then
          let run := t.takeWhile Char.isDigit
          some (digitsToNat (c :: run), t.dropWhile Char.isDigit)
        else none
    | [] => none
  match intPart with
  | none => none
  | some (i, r1) =>
    let fracPart : Option (Nat × Nat × List Char) := match r1 with
      | '.' :: t =>
          let run := t.takeWhile Char.isDigit
          if run = [] then none
          else some (digitsToNat run, run.length, t.dropWhile Char.isDigit)
      | _ => some (0, 0, r1)
    match fracPart with
    | none => none
    | some (f, flen, r2) =>
      let expPart : Option (Int × List Char) := match r2 with
        | 'e' :: t | 'E' :: t =>
            let (esign, t1) : Int × List Char := match t with
              | '+' :: u => (1, u)
              | '-' :: u => (-1, u)
              | _ => (1, t)
            let run := t1.takeWhile Char.isDigit
            if run = [] then none
            else some (esign * (digitsToNat run : Int), t1.dropWhile Char.isDigit)
        | _ => some (0, r2)
      match expPart with
      | none => none
      | some (e, r3) =>
        let mantissa : ℚ := ((i * 10 ^ flen + f : Nat) : ℚ) / ((10 ^ flen : Nat) : ℚ)
        let scaled : ℚ :=
          if 0 ≤ e then mantissa * ((10 ^ e.toNat : Nat) : ℚ)
          else mantissa / ((10 ^ (-e).toNat : Nat) : ℚ)
        some ((if neg then -scaled else scaled), r3)

/-- Parse the remainder of a JSON string literal (input starts just after the
opening quote), handling the escape sequences of JSON.parse and rejecting raw
control characters, returning the decoded characters and the rest. -/
def jsonParseStrChars : List Char → Option (List Char × List Char)
  | [] => none
  | '"' :: t => some ([], t)
  | '\\' :: rest =>
      match rest with
      | [] => none
      | e :: t =>
        let simple : Option Char :=
          if e = '"' then some '"'
          else if e = '\\' then some '\\'
          else if e = '/' then some '/'
          else if e = 'b' then some '\x08'
          else if e = 'f' then some '\x0c'
          else if e = 'n' then some '\n'
          else if e = 'r' then some '\r'
          else if e = 't' then some '\t'
          else none
        match simple with
        | some c =>
            match jsonParseStrChars t with
            | some (cs, r) => some (c :: cs, r)
            | none => none
        | none =>
          if e = 'u' then
            match t with
            | h1 :: h2 :: h3 :: h4 :: t' =>
                match hexDigitVal h1, hexDigitVal h2, hexDigitVal h3, hexDigitVal h4 with
                | some a, some b, some c, some d =>
                    match jsonParseStrChars t' with
                    | some (cs, r) =>
                        some (Char.ofNat (((a * 16 + b) * 16 + c) * 16 + d) :: cs, r)
                    | none => none
                | _, _, _, _ => none
            | _ => none
          else none
  | c :: t =>
      if c.toNat < 32 then none
      else
        match jsonParseStrChars t with
        | some (cs, r) => some (c :: cs, r)
        | none => none

/-- Insert a key/value pair into an object's field list the way JS property
assignment does on duplicate keys: the value is overwritten in place,
preserving first-insertion order (this is what JSON.parse does with duplicate
member names). -/
def objInsert (fields : List (String × JsValue)) (k : String) (v : JsValue) :
    List (String × JsValue) :=
  if fields.any (fun p => p.1 = k) then
    fields.map (fun p => if p.1 = k then (k, v) else p)
  else fields ++ [(k, v)]

mutual

/-- Parse one JSON value from the head of the input (after skipping leading
whitespace), fuel-indexed for termination; the top-level entry point supplies
more fuel than the input length, and every recursive call is made after at
least one character has been consumed, so fuel never runs out on real input. -/
def jsonParseValue : Nat → List Char → Option (JsValue × List Char)
  | 0, _ => none
  | fuel + 1, s =>
    let s := jsonSkipWs s
    match s with
    | 'n' :: 'u' :: 'l' :: 'l' :: t => some (.null, t)
    | 't' :: 'r' :: 'u' :: 'e' :: t => some (.bool true, t)
    | 'f' :: 'a' :: 'l' :: 's' :: 'e' :: t => some (.bool false, t)
    | '"' :: t =>
        match jsonParseStrChars t with
        | some (cs, r) => some (.str ⟨cs⟩, r)
        | none => none
    | '[' :: t =>
        let t' := jsonSkipWs t
        match t' with
        | ']' :: r => some (.arr [], r)
        | _ =>
            match jsonParseArrItems fuel [] t' with
            | some (vs, r) => some (.arr vs, r)
            | none => none
    | c :: t =>
        if c = braceL then
          let t' := jsonSkipWs t
          match t' with
          | c' :: r =>
              if c' = braceR then some (.obj [], r)
              else
                match jsonParseObjItems fuel [] t' with
                | some (fs, r') => some (.obj fs, r')
                | none => none
          | [] => none
        else
          match jsonParseNumber (c :: t) with
          | some (q, r) => some (.num q, r)
          | none => none
    | [] => none

/-- Parse the comma-separated elements of a JSON array (input positioned at
the first element), accumulating parsed values. -/
def jsonParseArrItems : Nat → List JsValue → List Char → Option (List JsValue × List Char)
  | 0, _, _ => none
  | fuel + 1, acc, s =>
    match jsonParseValue fuel s with
    | none => none
    | some (v, r) =>
      match jsonSkipWs r with
      | ',' :: t => jsonParseArrItems fuel (acc ++ [v]) t
      | ']' :: t => some (acc ++ [v], t)
      | _ => none

/-- Parse the comma-separated members of a JSON object (input positioned at
the first member), accumulating fields with JS duplicate-key semantics. -/
def jsonParseObjItems : Nat → List (String × JsValue) → List Char →
    Option (List (String × JsValue) × List Char)
  | 0, _, _ => none
  | fuel + 1, acc, s =>
    match jsonSkipWs s with
    | '"' :: t =>
        match jsonParseStrChars t with
        | none => none
        | some (kcs, r1) =>
          match jsonSkipWs r1 with
          | ':' :: r2 =>
              match jsonParseValue fuel r2 with
              | none => none
              | some (v, r3) =>
                let acc' := objInsert acc ⟨kcs⟩ v
                match jsonSkipWs r3 with
                | ',' :: t' => jsonParseObjItems fuel acc' t'
                | c :: t' => if c = braceR then some (acc', t') else none
                | [] => none
          | _ => none
    | _ => none

end

/-- Model of `JSON.parse`: parse one value and require that only whitespace
remains; `none` models a thrown SyntaxError. -/
def jsonParse (s : String) : Option JsValue :=
  match jsonParseValue (s.data.length + 1) s.data with
  | some (v, r) => if jsonSkipWs r = [] then some v else none
  | none => none

/-! ### Number and JSON printing (models of JS ToString on numbers and
JSON.stringify, used by the result formatter) -/

/-- Smallest `k ≤ cap` with `den ∣ 10 ^ k`, if any (a denominator produced by
the decimal parsers always divides a power of ten). -/
def decExponent (den : Nat) (cap : Nat) : Option Nat :=
  (List.range (cap + 1)).find? (fun k => 10 ^ k % den = 0)

/-- Model of JS number-to-string conversion for the values this program
produces: integers print without a decimal point, and finite decimals print
with their shortest decimal expansion (matching JS output for the magnitudes
in play; the final fallback is unreachable for parsed decimal values). -/
def numToString (q : ℚ) : String :=
  if q.den = 1 then toString q.num
  else
    match decExponent q.den 64 with
    | some k =>
        let m := q.num.natAbs * (10 ^ k / q.den)
        let digits := toString m
        let digits := if digits.length ≤ k then
            String.mk (List.replicate (k + 1 - digits.length) '0') ++ digits
          else digits
        let ip := digits.take (digits.length - k)
        let fp := digits.drop (digits.length - k)
        (if q.num < 0 then "-" else "") ++ ip ++ "." ++ fp
    | none => toString q.num ++ "/" ++ toString q.den

/-- JSON.stringify's escaping of one string character. -/
def jsonEscapeChar (c : Char) : List Char :=
  if c = '"' then ['\\', '"']
  else if c = '\\' then ['\\', '\\']
  else if c = '\x08' then ['\\', 'b']
  else if c = '\t' then ['\\', 't']
  else if c = '\n' then ['\\', 'n']
  else if c = '\x0c' then ['\\', 'f']
  else if c = '\r' then ['\\', 'r']
  else if c.toNat < 32 then
    let lo := c.toNat % 16
    let hi := c.toNat / 16
    let hexDig := fun (n : Nat) => if n < 10 then Char.ofNat ('0'.toNat + n)
      else Char.ofNat ('a'.toNat + (n - 10))
    ['\\', 'u', '0', '0', hexDig hi, hexDig lo]
  else [c]

/-- A JSON string literal for `s`, as JSON.stringify renders it. -/
def jsonQuote (s : String) : String :=
  "\"" ++ String.mk (s.data.flatMap jsonEscapeChar) ++ "\""

mutual

/-- Model of `JSON.stringify` (fuel-indexed; fuel is consumed once per
nesting level, and the entry point supplies fuel `2 ^ 64`, enough for any
value a host could construct).  `undefined` inside an array renders as
`null`; object members with `undefined` values are dropped; a RegExp has no
enumerable properties and renders as an empty object. -/
def jsonStringifyVal : Nat → JsValue → String
  | 0, _ => ""
  | _ + 1, .null => "null"
  | _ + 1, .undefined => "null"
  | _ + 1, .bool b => if b then "true" else "false"
  | _ + 1, .num q => numToString q
  | _ + 1, .str s => jsonQuote s
  | fuel + 1, .arr xs => "[" ++ jsonStringifyItems fuel xs ++ "]"
  | fuel + 1, .obj fs => String.mk [braceL] ++ jsonStringifyFields fuel fs ++ String.mk [braceR]
  | _ + 1, .regexp _ _ => String.mk [braceL, braceR]

/-- Comma-separated array elements for `jsonStringifyVal`. -/
def jsonStringifyItems : Nat → List JsValue → String
  | 0, _ => ""
  | _ + 1, [] => ""
  | fuel + 1, [v] => jsonStringifyVal fuel v
  | fuel + 1, v :: vs => jsonStringifyVal fuel v ++ "," ++ jsonStringifyItems fuel vs

/-- Comma-separated object members for `jsonStringifyVal`, dropping
`undefined`-valued members the way JSON.stringify does. -/
def jsonStringifyFields : Nat → List (String × JsValue) → String
  | 0, _ => ""
  | _ + 1, [] => ""
  | fuel + 1, (k, v) :: fs =>
      match v with
      | .undefined => jsonStringifyFields fuel fs
      | _ =>
        let rest := jsonStringifyFields fuel fs
        jsonQuote k ++ ":" ++ jsonStringifyVal fuel v ++
          (if rest = "" then "" else ",") ++ rest

end

/-- Model of `JSON.stringify` on a value (top level is only ever called on
arrays and objects by this program's `formatValue`). -/
def jsonStringify (v : JsValue) : String :=
  jsonStringifyVal (2 ^ 64) v

/-! ### A small ECMAScript-regular-expression engine, modelling `new RegExp`
and `RegExp.prototype.test` on the fragment of the regex language this
program's expected-value literals can use.  Constructs outside the fragment
(groups, alternation, classes in brackets, counted repetition, backreferences,
word-boundary escapes) make compilation fail; in particular every pattern the
claims exercise is either in the fragment or invalid in ECMAScript as well. -/

/-- A predefined character class (`\d`, `\w`, `\s` and their negations). -/
inductive RCls where
  | digit
  | word
  | space
  deriving Repr, DecidableEq

/-- One compiled regex token: anchors, atoms, and quantified atoms. -/
inductive RTok where
  | anchorStart
  | anchorEnd
  | dot
  | lit (c : Char)
  | cls (neg : Bool) (k : RCls)
  | star (t : RTok)
  | plus (t : RTok)
  | opt (t : RTok)
  deriving Repr, DecidableEq

/-- Whether a token is a plain atom (something a quantifier may follow). -/
def reIsAtom : RTok → Bool
  | .dot => true
  | .lit _ => true
  | .cls _ _ => true
  | _ => false

/-- Compile a pattern string into tokens (accumulator is kept reversed);
`none` models a SyntaxError from the RegExp constructor or an unsupported
construct. -/
def reParse : List Char → List RTok → Option (List RTok)
  | [], acc => some acc.reverse
  | c :: t, acc =>
    if c = '^' then reParse t (.anchorStart :: acc)
    else if c = '$' then reParse t (.anchorEnd :: acc)
    else if c = '.' then reParse t (.dot :: acc)
    else if c = '*' || c = '+' || c = '?' then
      match acc with
      | a :: acc' =>
          if reIsAtom a then
            let q : RTok := if c = '*' then .star a else if c = '+' then .plus a else .opt a
            reParse t (q :: acc')
          else none
      | [] => none
    else if c = '\\' then
      match t with
      | [] => none
      | e :: t' =>
          if e = 'd' then reParse t' (.cls false .digit :: acc)
          else if e = 'D' then reParse t' (.cls true .digit :: acc)
          else if e = 'w' then reParse t' (.cls false .word :: acc)
          else if e = 'W' then reParse t' (.cls true .word :: acc)
          else if e = 's' then reParse t' (.cls false .space :: acc)
          else if e = 'S' then reParse t' (.cls true .space :: acc)
          else if e = 'n' then reParse t' (.lit '\n' :: acc)
          else if e = 'r' then reParse t' (.lit '\r' :: acc)
          else if e = 't' then reParse t' (.lit '\t' :: acc)
          else if e = 'f' then reParse t' (.lit '\x0c' :: acc)
          else if e = 'v' then reParse t' (.lit '\x0b' :: acc)
          else if e = '0' then reParse t' (.lit '\x00' :: acc)
          else if e.isAlphanum then none
          else reParse t' (.lit e :: acc)
    else if c = '(' || c = ')' || c = '[' || c = ']' || c = '|' ||
        c = braceL || c = braceR then none
    else reParse t (.lit c :: acc)

/-- Class membership for `\d`, `\w`, `\s`. -/
def rclsMatches : RCls → Char → Bool
  | .digit, c => c.isDigit
  | .word, c => c.isAlphanum || c = '_'
  | .space, c => isJsWs c

/-- Whether an atom token matches one character (under optional case
folding for the `i` flag). -/
def reAtomMatches (icase : Bool) : RTok → Char → Bool
  | .dot, c => !(c = '\n' || c = '\r')
  | .lit l, c => if icase then l.toLower = c.toLower else l = c
  | .cls neg k, c => (rclsMatches k c) != neg
  | _, _ => false

/-- Match a token sequence against a prefix of the input (`atStart` records
whether the current position is the start of the subject string, for `^`).
Fuel-indexed backtracking; the entry point supplies ample fuel. -/
def reMatchSeq (icase : Bool) : Nat → List RTok → Bool → List Char → Bool
  | 0, _, _, _ => false
  | _ + 1, [], _, _ => true
  | fuel + 1, .anchorStart :: rest, atStart, s =>
      atStart && reMatchSeq icase fuel rest atStart s
  | fuel + 1, .anchorEnd :: rest, atStart, s =>
      s.isEmpty && reMatchSeq icase fuel rest atStart s
  | fuel + 1, .star t :: rest, atStart, s =>
      reMatchSeq icase fuel rest atStart s ||
      (match s with
       | c :: s' => reAtomMatches icase t c && reMatchSeq icase fuel (.star t :: rest) false s'
       | [] => false)
  | fuel + 1, .plus t :: rest, _, s =>
      match s with
      | c :: s' => reAtomMatches icase t c && reMatchSeq icase fuel (.star t :: rest) false s'
      | [] => false
  | fuel + 1, .opt t :: rest, atStart, s =>
      reMatchSeq icase fuel rest atStart s ||
      (match s with
       | c :: s' => reAtomMatches icase t c && reMatchSeq icase fuel rest false s'
       | [] => false)
  | fuel + 1, t :: rest, _, s =>
      match s with
      | c :: s' => reAtomMatches icase t c && reMatchSeq icase fuel rest false s'
      | [] => false

/-- Try to match starting at each position of the input, left to right. -/
def reSearch (icase : Bool) (fuel : Nat) (toks : List RTok) :
    Bool → List Char → Bool
  | atStart, s =>
      reMatchSeq icase fuel toks atStart s ||
      (match s with
       | _ :: s' => reSearch icase fuel toks false s'
       | [] => false)

/-- Whether the RegExp constructor accepts the pattern (within the modelled
fragment). -/
def reValid (pattern : String) : Bool :=
  (reParse pattern.data []).isSome

/-- Model of `RegExp.prototype.test` for a regex built from `pattern` and
`flags`: search for a match anywhere in the subject.  Only the `i` flag
changes the outcome of `test` on the modelled fragment. -/
def reTest (pattern flags subject : String) : Bool :=
  match reParse pattern.data [] with
  | none => false
  | some toks =>
      let icase := flags.data.contains 'i'
      reSearch icase ((toks.length + 1) * (subject.data.length + 2)) toks true subject.data

/-! ### Data model (assertionTypes.ts) -/

/-- One parsed `@assert` directive (interface `Assertion`): optional
description, expression path, operator name, expected literal (`JsValue.null`
for the no-value call shapes), and diagnostic line/raw fields filled in by
the block parser. -/
structure Assertion where
  description : Option String := none
  expression : String
  operator : String
  expected : JsValue := .null
  line : Option Nat := none
  raw : Option String := none
  deriving Repr

/-- Outcome of evaluating one assertion (interface `AssertionResult`).
`actualValue`/`error` are optional fields; `none` models the field not being
set on the result object (note that a field set to JS `undefined` is
`some JsValue.undefined`, which is observationally absent as well). -/
structure AssertionResult where
  assertion : Assertion
  passed : Bool
  actualValue : Option JsValue := none
  error : Option String := none
  deriving Repr

/-- The raw HTTP response handed to `validateAssertions` (interface
`HttpRequestResult`: numeric status code, headers, raw body text). -/
structure HttpRequestResult where
  statusCode : ℚ
  headers : List (String × String)
  body : String
  deriving Repr

/-- Observational definedness of an optional result field: a missing field
and a field holding `undefined` both compare `!== undefined`-false. -/
def optJsIsDefined : Option JsValue → Bool
  | some .undefined => false
  | some _ => true
  | none => false

/-! ### Evaluator (assertionValidator.ts) -/

/-- `parseResponseBody`: an empty or whitespace-only body normalizes to
`null`; otherwise the body is JSON-parsed, falling back to the raw string. -/
def parseResponseBody (body : String) : JsValue :=
  if body = "" ∨ jsTrim body = "" then .null
  else
    match jsonParse body with
    | some v => v
    | none => .str body

/-- The `ResponseData` object built at the top of `validateAssertions`,
as a JS object value (the resolver accesses it dynamically). -/
def mkResponseData (response : HttpRequestResult) : JsValue :=
  .obj [("status", .num response.statusCode),
        ("headers", .obj (response.headers.map (fun p => (p.1, JsValue.str p.2)))),
        ("body", parseResponseBody response.body)]

/-- A string that denotes a canonical array-index property key (JS member
access `arr[k]` hits an element only for such keys). -/
def jsIndexKey (s : String) : Option Nat :=
  match s.data with
  | [] => none
  | c :: rest =>
      if (c :: rest).all Char.isDigit ∧ (c ≠ '0' ∨ rest = []) then
        some (digitsToNat (c :: rest))
      else none

/-- JS member access `v[key]` on a non-null, non-undefined value, restricted
to data properties: object fields, array elements and `length`, string
characters and `length`.  Prototype members (methods, RegExp accessors) are
not modelled; accessing them resolves to `undefined` here, which no claim
exercises. -/
def jsGetProp : JsValue → String → JsValue
  | .obj fields, k =>
      match fields.find? (fun p => p.1 = k) with
      | some p => p.2
      | none => .undefined
  | .arr xs, k =>
      if k = "length" then .num xs.length
      else
        match jsIndexKey k with
        | some i => (xs.get? i).getD .undefined
        | none => .undefined
  | .str s, k =>
      if k = "length" then .num s.data.length
      else
        match jsIndexKey k with
        | some i =>
            match s.data.get? i with
            | some c => .str ⟨[c]⟩
            | none => .undefined
        | none => .undefined
  | _, _ => .undefined

/-- The bracket-notation test of `resolveExpression`: the regex
`^([^\[]+)\[(\d+)\]$` applied to one dot-separated part, yielding the
property name and the decimal index. -/
def matchArrayPart (part : String) : Option (String × Nat) :=
  let cs := part.data
  let name := cs.takeWhile (fun c => c ≠ '[')
  let rest := cs.dropWhile (fun c => c ≠ '[')
  match name, rest with
  | [], _ => none
  | _, '[' :: r2 =>
      let ds := r2.takeWhile Char.isDigit
      if ds ≠ [] ∧ r2.dropWhile Char.isDigit = [']'] then
        some (⟨name⟩, digitsToNat ds)
      else none
  | _, _ => none

/-- The per-part loop of `resolveExpression`: short-circuit to `undefined`
when the current value is `null`/`undefined`, follow bracket parts through an
array lookup (returning `undefined` outright when the looked-up property is
not an array), and follow plain parts through member access. -/
def resolveSteps : JsValue → List String → JsValue
  | current, [] => current
  | .null, _ :: _ => .undefined
  | .undefined, _ :: _ => .undefined
  | current, part :: rest =>
      match matchArrayPart part with
      | some (propName, index) =>
          match jsGetProp current propName with
          | .arr xs => resolveSteps ((xs.get? index).getD .undefined) rest
          | _ => .undefined
      | none => resolveSteps (jsGetProp current part) rest

/-- `resolveExpression`: split the expression on dots and walk it from the
root object `\x7b res: responseData \x7d`. -/
def resolveExpression (expression : String) (responseData : JsValue) : JsValue :=
  resolveSteps (.obj [("res", responseData)]) (expression.splitOn ".")

/-- Whether the first character list is a prefix of the second. -/
def listIsPrefix : List Char → List Char → Bool
  | [], _ => true
  | _ :: _, [] => false
  | a :: as, b :: bs => a = b && listIsPrefix as bs

/-- Whether the first character list occurs contiguously in the second. -/
def listIsInfix (needle : List Char) : List Char → Bool
  | [] => listIsPrefix needle []
  | c :: rest => listIsPrefix needle (c :: rest) || listIsInfix needle rest

/-- JS `a.includes(b)` on strings. -/
def jsIncludes (a b : String) : Bool := listIsInfix b.data a.data

/-- ECMAScript ToNumber on the values that can appear as `between` bounds,
`none` modelling NaN.  (Objects and arrays would first convert via their
string form; the program's realistic literals never produce such bounds, and
no claim exercises them, so they conservatively map to NaN here.) -/
def jsToNumber : JsValue → Option ℚ
  | .num q => some q
  | .bool b => some (if b then 1 else 0)
  | .null => some 0
  | .undefined => none
  | .str s =>
      let t := jsTrim s
      if t = "" then some 0
      else
        match jsonParseNumber t.data with
        | some (q, []) => some q
        | _ => none
  | _ => none

/-- `evaluateOperator`: the operator switch.  The `Except.error` result
models the `throw new Error` of the default case; every listed operator
returns a boolean without throwing. -/
def evaluateOperator (operator : String) (actual expected : JsValue) :
    Except String Bool :=
  if operator = "equals" then .ok (jsStrictEq actual expected)
  else if operator = "notEquals" then .ok (!jsStrictEq actual expected)
  else if operator = "gt" then
    .ok (match actual, expected with
      | .num a, .num b => decide (a > b)
      | _, _ => false)
  else if operator = "gte" then
    .ok (match actual, expected with
      | .num a, .num b => decide (a ≥ b)
      | _, _ => false)
  else if operator = "lt" then
    .ok (match actual, expected with
      | .num a, .num b => decide (a < b)
      | _, _ => false)
  else if operator = "lte" then
    .ok (match actual, expected with
      | .num a, .num b => decide (a ≤ b)
      | _, _ => false)
  else if operator = "contains" then
    .ok (match actual, expected with
      | .str a, .str b => jsIncludes a b
      | _, _ => false)
  else if operator = "notContains" then
    .ok (match actual, expected with
      | .str a, .str b => !jsIncludes a b
      | _, _ => false)
  else if operator = "startsWith" then
    .ok (match actual, expected with
      | .str a, .str b => listIsPrefix b.data a.data
      | _, _ => false)
  else if operator = "endsWith" then
    .ok (match actual, expected with
      | .str a, .str b => listIsPrefix b.data.reverse a.data.reverse
      | _, _ => false)
  else if operator = "matches" then
    .ok (match expected with
      | .regexp p f =>
          match actual with
          | .str s => reTest p f s
          | _ => false
      | _ => false)
  else if operator = "notMatches" then
    .ok (match expected with
      | .regexp p f =>
          match actual with
          | .str s => !reTest p f s
          | _ => false
      | _ => false)
  else if operator = "isNull" then
    .ok (match actual with
      | .null => true
      | _ => false)
  else if operator = "isNotNull" then
    .ok (match actual with
      | .null => false
      | _ => true)
  else if operator = "isEmpty" then
    .ok (match actual with
      | .str s => s = ""
      | .arr xs => xs.length = 0
      | .obj fs => fs.length = 0
      | .regexp _ _ => true
      | _ => false)
  else if operator = "isNotEmpty" then
    .ok (match actual with
      | .str s => s ≠ ""
      | .arr xs => decide (xs.length > 0)
      | .obj fs => decide (fs.length > 0)
      | .regexp _ _ => false
      | _ => false)
  else if operator = "isDefined" then
    .ok (match actual with
      | .undefined => false
      | .null => false
      | _ => true)
  else if operator = "isUndefined" then
    .ok (match actual with
      | .undefined => true
      | .null => true
      | _ => false)
  else if operator = "isTruthy" then .ok (jsTruthy actual)
  else if operator = "isFalsy" then .ok (!jsTruthy actual)
  else if operator = "isNumber" then
    .ok (match actual with
      | .num _ => true
      | _ => false)
  else if operator = "isString" then
    .ok (match actual with
      | .str _ => true
      | _ => false)
  else if operator = "isBoolean" then
    .ok (match actual with
      | .bool _ => true
      | _ => false)
  else if operator = "isArray" then
    .ok (match actual with
      | .arr _ => true
      | _ => false)
  else if operator = "isJson" then
    .ok (match actual with
      | .str s => (jsonParse s).isSome
      | .obj _ => true
      | .arr _ => true
      | .regexp _ _ => true
      | _ => false)
  else if operator = "in" then
    .ok (match expected with
      | .arr xs => xs.any (fun x => jsStrictEq x actual)
      | _ => false)
  else if operator = "notIn" then
    .ok (match expected with
      | .arr xs => !xs.any (fun x => jsStrictEq x actual)
      | _ => false)
  else if operator = "between" then
    .ok (match expected, actual with
      | .arr [mn, mx], .num a =>
          (match jsToNumber mn with
           | some m => decide (a ≥ m)
           | none => false) &&
          (match jsToNumber mx with
           | some m => decide (a ≤ m)
           | none => false)
      | _, _ => false)
  else if operator = "length" then
    .ok (match actual with
      | .str s => jsStrictEq (.num s.data.length) expected
      | .arr xs => jsStrictEq (.num xs.length) expected
      | _ => false)
  else .error ("Unknown operator: " ++ operator)

/-- The enumerated operator names of the switch in `evaluateOperator` (also
the `AssertionOperator` union of assertionTypes.ts), in source order. -/
def knownOperators : List String :=
  ["equals", "notEquals", "gt", "gte", "lt", "lte",
   "contains", "notContains", "startsWith", "endsWith",
   "matches", "notMatches",
   "isNull", "isNotNull", "isEmpty", "isNotEmpty",
   "isDefined", "isUndefined",
   "isTruthy", "isFalsy",
   "isNumber", "isString", "isBoolean", "isArray", "isJson",
   "in", "notIn", "between", "length"]

/-- `evaluateAssertion`: resolve the expression, apply the operator, and
build the result; an operator throw propagates as `Except.error`. -/
def evaluateAssertion (assertion : Assertion) (responseData : JsValue) :
    Except String AssertionResult := do
  let actualValue := resolveExpression assertion.expression responseData
  let passed ← evaluateOperator assertion.operator actualValue assertion.expected
  return { assertion := assertion, passed := passed, actualValue := some actualValue }

/-- `validateAssertions`: build the response data once, then evaluate each
assertion, converting a thrown error into a failed result that carries the
message (the catch block, which does not set `actualValue`). -/
def validateAssertions (assertions : List Assertion) (response : HttpRequestResult) :
    List AssertionResult :=
  let responseData := mkResponseData response
  assertions.map (fun assertion =>
    match evaluateAssertion assertion responseData with
    | .ok result => result
    | .error e => { assertion := assertion, passed := false, error := some e })

/-! ### Result formatter (assertionValidator.ts) -/

/-- `formatValue`: literal rendering for display (the cascade of the
source, in order: null, undefined, RegExp, string, object, default). -/
def formatValue : JsValue → String
  | .null => "null"
  | .undefined => "undefined"
  | .regexp p f => "/" ++ p ++ "/" ++ f
  | .str s => "\"" ++ s ++ "\""
  | .arr xs => jsonStringify (.arr xs)
  | .obj fs => jsonStringify (.obj fs)
  | .num q => numToString q
  | .bool b => if b then "true" else "false"

/-- The operators whose display line omits the expected value (the literal
list in `formatAssertionResults`). -/
def unaryDisplayOps : List String :=
  ["isDefined", "isUndefined", "isNull", "isNotNull", "isEmpty", "isNotEmpty",
   "isTruthy", "isFalsy", "isNumber", "isString", "isBoolean", "isArray", "isJson"]

/-- One display line of `formatAssertionResults`: glyph, expression,
operator, expected value when the operator consumes one, and on failure the
error message (when truthy) or the actual value (when set and defined). -/
def formatResultLine (result : AssertionResult) : String :=
  let symbol := if result.passed then "✓" else "✗"
  let line := symbol ++ " " ++ result.assertion.expression ++ " " ++ result.assertion.operator
  let line :=
    if !(unaryDisplayOps.contains result.assertion.operator) then
      line ++ " " ++ formatValue result.assertion.expected
    else line
  if !result.passed then
    if (result.error.getD "") ≠ "" then
      line ++ " (Error: " ++ result.error.getD "" ++ ")"
    else if optJsIsDefined result.actualValue then
      line ++ " (actual: " ++ formatValue (result.actualValue.getD .undefined) ++ ")"
    else line
  else line

/-- `formatAssertionResults`: empty input renders as the empty string;
otherwise a header, one line per result, and a `<passed>/<total> assertions
passed` summary. -/
def formatAssertionResults (results : List AssertionResult) : String :=
  if results.length = 0 then ""
  else
    let output := "\n=== ASSERTIONS ===\n"
    let output := output ++ String.join (results.map (fun r => formatResultLine r ++ "\n"))
    let passed := (results.filter (fun r => r.passed)).length
    let total := results.length
    output ++ "\n" ++ toString passed ++ "/" ++ toString total ++ " assertions passed"

/-! ### Annotation extractor (assertionExtractor, src/unnamed/part_003)

The four `@assert` call shapes are matched by regexes in the source.  They
are embedded here as deterministic character-list matchers: every construct
of those regexes except the lazy value group and the unanchored start is
deterministic (`"([^"]*)"` captures up to the next quote; `\s*` before a
non-whitespace literal is a greedy run), the lazy value group
`(.+?)\s*\)\s*$` is implemented shortest-first with the preceding greedy
`\s*` backtracking longest-first, and the unanchored search tries start
positions left to right, exactly as the host regex engine does. -/

/-- Consume an exact literal from the head of the input. -/
def eatLit : List Char → List Char → Option (List Char)
  | [], s => some s
  | _ :: _, [] => none
  | c :: cs, d :: ds => if c = d then eatLit cs ds else none

/-- Consume `\s*` (greedy; in the shape regexes it is always followed by a
non-whitespace literal, so the greedy run is the only possible match). -/
def eatWs (s : List Char) : List Char := s.dropWhile isJsWs

/-- Consume `"([^"]*)"`: an opening quote, the capture (everything up to the
next quote), and the closing quote. -/
def eatQuoted : List Char → Option (List Char × List Char)
  | '"' :: t =>
      let g := t.takeWhile (fun c => c ≠ '"')
      match t.dropWhile (fun c => c ≠ '"') with
      | '"' :: r => some (g, r)
      | _ => none
  | _ => none

/-- Whether the input matches `\s*\)\s*$` in full. -/
def closeParenTail (s : List Char) : Bool :=
  match s.dropWhile isJsWs with
  | ')' :: rest => rest.all isJsWs
  | _ => false

/-- The lazy value group `(.+?)\s*\)\s*$`: the shortest non-empty capture
whose remainder matches the close-paren tail. -/
def lazyValue (acc : List Char) : List Char → Option (List Char)
  | [] => none
  | c :: rest =>
      if closeParenTail rest then some (acc ++ [c])
      else lazyValue (acc ++ [c]) rest

/-- `\s*(.+?)\s*\)\s*$`: the greedy whitespace run backtracks from longest
to shortest before the lazy capture (this matters only when the value
consists wholly of whitespace). -/
def wsLazyAux (s : List Char) : Nat → Option (List Char)
  | 0 => lazyValue [] s
  | k + 1 =>
      match lazyValue [] (s.drop (k + 1)) with
      | some g => some g
      | none => wsLazyAux s k

/-- Entry point for `\s*(.+?)\s*\)\s*$`. -/
def wsThenLazy (s : List Char) : Option (List Char) :=
  wsLazyAux s (s.takeWhile isJsWs).length

/-- Try the 4-argument shape
`@assert\s*\(\s*"([^"]*)"\s*,\s*"([^"]*)"\s*,\s*"([^"]*)"\s*,\s*(.+?)\s*\)\s*$`
at the current position. -/
def tryShape4At (s : List Char) : Option (String × String × String × String) := do
  let s ← eatLit "@assert".data s
  let s ← match eatWs s with
    | '(' :: t => some t
    | _ => none
  let (g1, s) ← eatQuoted (eatWs s)
  let s ← match eatWs s with
    | ',' :: t => some t
    | _ => none
  let (g2, s) ← eatQuoted (eatWs s)
  let s ← match eatWs s with
    | ',' :: t => some t
    | _ => none
  let (g3, s) ← eatQuoted (eatWs s)
  let s ← match eatWs s with
    | ',' :: t => some t
    | _ => none
  let g4 ← wsThenLazy s
  return (⟨g1⟩, ⟨g2⟩, ⟨g3⟩, ⟨g4⟩)

/-- Try the 3-argument with-value shape
`@assert\s*\(\s*"([^"]*)"\s*,\s*"([^"]*)"\s*,\s*(.+?)\s*\)\s*$`
at the current position. -/
def tryShapeWithValueAt (s : List Char) : Option (String × String × String) := do
  let s ← eatLit "@assert".data s
  let s ← match eatWs s with
    | '(' :: t => some t
    | _ => none
  let (g1, s) ← eatQuoted (eatWs s)
  let s ← match eatWs s with
    | ',' :: t => some t
    | _ => none
  let (g2, s) ← eatQuoted (eatWs s)
  let s ← match eatWs s with
    | ',' :: t => some t
    | _ => none
  let g3 ← wsThenLazy s
  return (⟨g1⟩, ⟨g2⟩, ⟨g3⟩)

/-- Try the 3-argument with-description shape
`@assert\s*\(\s*"([^"]*)"\s*,\s*"([^"]*)"\s*,\s*"([^"]*)"\s*\)\s*$`
at the current position. -/
def tryShape3DescAt (s : List Char) : Option (String × String × String) := do
  let s ← eatLit "@assert".data s
  let s ← match eatWs s with
    | '(' :: t => some t
    | _ => none
  let (g1, s) ← eatQuoted (eatWs s)
  let s ← match eatWs s with
    | ',' :: t => some t
    | _ => none
  let (g2, s) ← eatQuoted (eatWs s)
  let s ← match eatWs s with
    | ',' :: t => some t
    | _ => none
  let (g3, s) ← eatQuoted (eatWs s)
  if closeParenTail s then return (⟨g1⟩, ⟨g2⟩, ⟨g3⟩) else none

/-- Try the 2-argument shape
`@assert\s*\(\s*"([^"]*)"\s*,\s*"([^"]*)"\s*\)\s*$` at the current
position. -/
def tryShape2At (s : List Char) : Option (String × String) := do
  let s ← eatLit "@assert".data s
  let s ← match eatWs s with
    | '(' :: t => some t
    | _ => none
  let (g1, s) ← eatQuoted (eatWs s)
  let s ← match eatWs s with
    | ',' :: t => some t
    | _ => none
  let (g2, s) ← eatQuoted (eatWs s)
  if closeParenTail s then return (⟨g1⟩, ⟨g2⟩) else none

/-- Unanchored regex search: try the position matcher at every start
position, left to right (`String.prototype.match` returns the leftmost
match). -/
def scanMatch {α : Type} (f : List Char → Option α) : List Char → Option α
  | [] => f []
  | c :: rest =>
      match f (c :: rest) with
      | some r => some r
      | none => scanMatch f rest

/-- `^-?\d+(\.\d+)?$`: the numeric-literal test of `parseExpectedValue`. -/
def numLitMatch (s : String) : Bool :=
  let cs := match s.data with
    | '-' :: t => t
    | t => t
  let ip := cs.takeWhile Char.isDigit
  let rest := cs.dropWhile Char.isDigit
  ip ≠ [] &&
    match rest with
    | [] => true
    | '.' :: t => t ≠ [] && t.all Char.isDigit
    | _ => false

/-- `parseFloat` on a string matching the numeric-literal pattern: its exact
decimal value. -/
def numLitVal (s : String) : ℚ :=
  let (neg, cs) : Bool × List Char := match s.data with
    | '-' :: t => (true, t)
    | t => (false, t)
  let ip := cs.takeWhile Char.isDigit
  let rest := cs.dropWhile Char.isDigit
  let fdigits := match rest with
    | '.' :: t => t.takeWhile Char.isDigit
    | _ => []
  let m : ℚ := ((digitsToNat ip * 10 ^ fdigits.length + digitsToNat fdigits : Nat) : ℚ)
  let v := m / ((10 ^ fdigits.length : Nat) : ℚ)
  if neg then -v else v

/-- `^\/(.+)\/([gimsuvy]*)$`: split a regex literal into pattern and flags.
The greedy `(.+)` makes the pattern run to the last `/`; a match exists only
if everything after that `/` is flag characters. -/
def regexLitMatch (s : String) : Option (String × String) :=
  match s.data with
  | '/' :: r =>
      let rev := r.reverse
      let flagsRev := rev.takeWhile (fun c => c ≠ '/')
      match rev.dropWhile (fun c => c ≠ '/') with
      | '/' :: grev =>
          if grev ≠ [] ∧ flagsRev.all (fun c =>
              c = 'g' || c = 'i' || c = 'm' || c = 's' || c = 'u' || c = 'v' || c = 'y') then
            some (⟨grev.reverse⟩, ⟨flagsRev.reverse⟩)
          else none
      | _ => none
  | _ => none

/-- `parseExpectedValue`: the expected-value literal parser, trying in
order: `null`, booleans, JSON array (malformed arrays fall through), number,
regex literal (an invalid pattern falls through), quoted string, and the
verbatim-string fallback. -/
def parseExpectedValue (value : String) : JsValue :=
  let trimmed := jsTrim value
  if trimmed = "null" then .null
  else if trimmed = "true" then .bool true
  else if trimmed = "false" then .bool false
  else
    let arrTry : Option JsValue :=
      if trimmed.data.head? = some '[' ∧ trimmed.data.getLast? = some ']' then
        match jsonParse trimmed with
        | some (JsValue.arr xs) => some (.arr xs)
        | _ => none
      else none
    match arrTry with
    | some v => v
    | none =>
      if numLitMatch trimmed then .num (numLitVal trimmed)
      else
        let reTry : Option JsValue :=
          match regexLitMatch trimmed with
          | some (p, f) => if reValid p then some (.regexp p f) else none
          | none => none
        match reTry with
        | some v => v
        | none =>
          if (trimmed.data.head? = some '"' ∧ trimmed.data.getLast? = some '"') ∨
              (trimmed.data.head? = some '\'' ∧ trimmed.data.getLast? = some '\'') then
            ⟨(trimmed.data.drop 1).dropLast⟩ |> JsValue.str
          else .str trimmed

/-- `parseAssertionLine`: try the four call shapes, most arguments first
(4-arg, then 3-arg-with-value, then 3-arg-with-description, then 2-arg),
mirroring the source's ordered regex attempts; each captured group is
trimmed as in the source. -/
def parseAssertionLine (line : String) : Option Assertion :=
  match scanMatch tryShape4At line.data with
  | some (g1, g2, g3, g4) =>
      some { description := some (jsTrim g1), expression := jsTrim g2,
             operator := jsTrim g3, expected := parseExpectedValue (jsTrim g4) }
  | none =>
    match scanMatch tryShapeWithValueAt line.data with
    | some (g1, g2, g3) =>
        some { expression := jsTrim g1, operator := jsTrim g2,
               expected := parseExpectedValue (jsTrim g3) }
    | none =>
      match scanMatch tryShape3DescAt line.data with
      | some (g1, g2, g3) =>
          some { description := some (jsTrim g1), expression := jsTrim g2,
                 operator := jsTrim g3, expected := .null }
      | none =>
        match scanMatch tryShape2At line.data with
        | some (g1, g2) =>
            some { expression := jsTrim g1, operator := jsTrim g2, expected := .null }
        | none => none

/-- Index of the first occurrence of `pat` in the input, if any. -/
def findSubIdx (pat : List Char) : List Char → Option Nat
  | [] => if listIsPrefix pat [] then some 0 else none
  | c :: rest =>
      if listIsPrefix pat (c :: rest) then some 0
      else (findSubIdx pat rest).map (fun n => n + 1)

/-- Match the removal regex `\/\*[\s\S]*?@assert[\s\S]*?\*\//` at the current
position, returning the match length.  The two lazy runs make the match
extend to the first `@assert` after the `/*` and then to the first `*/`
after that `@assert`; regex backtracking to a later `@assert` can never
rescue a failed match, because the `*/` search already extends to the end of
the input. -/
def tryAssertBlockAt (s : List Char) : Option Nat :=
  match s with
  | '/' :: '*' :: rest =>
      match findSubIdx "@assert".data rest with
      | none => none
      | some j =>
          match findSubIdx "*/".data (rest.drop (j + 7)) with
          | none => none
          | some k => some (2 + j + 7 + k + 2)
  | _ => none

/-- The global replace of `removeAssertionBlocks`: scan left to right,
deleting each match of the removal regex and continuing after it. -/
def replaceAssertBlocksGo : Nat → List Char → List Char
  | 0, s => s
  | fuel + 1, s =>
      match tryAssertBlockAt s with
      | some len => replaceAssertBlocksGo fuel (s.drop len)
      | none =>
          match s with
          | [] => []
          | c :: rest => c :: replaceAssertBlocksGo fuel rest

/-- `removeAssertionBlocks`: delete every match of
`\/\*[\s\S]*?@assert[\s\S]*?\*\//g` and trim the result. -/
def removeAssertionBlocks (content : String) : String :=
  jsTrim ⟨replaceAssertBlocksGo (content.data.length + 1) content.data⟩

/-- A canonical three-quoted-argument `@assert` line,
`@assert("<d>", "<e>", "<o>")`, built from the three argument texts. -/
def mkThreeArgLine (d e o : List Char) : String :=
  ⟨"@assert(\"".data ++ (d ++ ("\", \"".data ++ (e ++ ("\", \"".data ++ (o ++ "\")".data)))))⟩

/-! ### Concrete fixtures used by the theorems below -/

/-- A response whose body is a two-element users array. -/
def respUsers : HttpRequestResult :=
  { statusCode := 200, headers := [],
    body := "\x7b\"users\":[\x7b\"name\":\"a\"\x7d,\x7b\"name\":\"b\"\x7d]\x7d" }

/-- A response whose body is the empty JSON object. -/
def respEmptyObj : HttpRequestResult :=
  { statusCode := 200, headers := [], body := "\x7b\x7d" }

/-- A response whose body's `users` property is an object, not an array. -/
def respObjUsers : HttpRequestResult :=
  { statusCode := 200, headers := [], body := "\x7b\"users\":\x7b\"x\":1\x7d\x7d" }

/-- A response with status 200 and an empty body. -/
def resp200 : HttpRequestResult := { statusCode := 200, headers := [], body := "" }

/-- An assertion with an operator name outside the enumerated set. -/
def aBogus : Assertion := { expression := "res.status", operator := "bogus" }

/-- An assertion checking `res.status equals 200`. -/
def aEq200 : Assertion :=
  { expression := "res.status", operator := "equals", expected := .num 200 }

/-- The result `validateAssertions` produces for `aEq200` against `resp200`. -/
def wRes : AssertionResult :=
  { assertion := aEq200, passed := true, actualValue := some (.num 200) }

/-- File content where the only `@assert` sits in the second comment block;
the first block is `@assert`-free and the text ` mid ` lies between the two
blocks. -/
def c6Input : String :=
  "/* plain */ mid /* @assert(\"res.status\", \"equals\", 200) */ end"

/-- A failed `equals` result with expected `"foo"` and actual `"bar"`. -/
def rFooBar : AssertionResult :=
  { assertion := { expression := "res.body.name", operator := "equals", expected := .str "foo" },
    passed := false, actualValue := some (.str "bar") }

/-- A passing unary (`isNull`) result. -/
def rIsNull : AssertionResult :=
  { assertion := { expression := "res.body", operator := "isNull" },
    passed := true, actualValue := some .null }

/-- An `isNull` assertion on `res.body`. -/
def aIsNullBody : Assertion := { expression := "res.body", operator := "isNull" }

/-- An `equals ""` assertion on `res.body`. -/
def aEqEmptyBody : Assertion :=
  { expression := "res.body", operator := "equals", expected := .str "" }

/-- Evaluating one assertion the way the `validateAssertions` loop body does
(result on success, catch block on a thrown error). -/
def evalCaught (a : Assertion) (responseData : JsValue) : AssertionResult :=
  match evaluateAssertion a responseData with
  | .ok result => result
  | .error e => { assertion := a, passed := false, error := some e }

/-- The shape of each numeric-comparison branch of `evaluateOperator`:
apply the comparison when both operands are numbers, otherwise `false`. -/
def numCmpSem (f : ℚ → ℚ → Bool) : JsValue → JsValue → Bool
  | .num x, .num y => f x y
  | _, _ => false

end CursorToys

namespace CursorToys

/-! ### Shared helper lemmas -/

/-- Validation returns one result per assertion. -/
theorem validateAssertions_length (as : List Assertion) (resp : HttpRequestResult) :
    (validateAssertions as resp).length = as.length := by
  simp [validateAssertions]

/-- An operator name outside the enumerated switch reaches the default case
and throws. -/
theorem evaluateOperator_unknown (op : String) (a e : JsValue)
    (h : op ∉ knownOperators) :
    evaluateOperator op a e = .error ("Unknown operator: " ++ op) := by
  simp only [knownOperators, List.mem_cons, List.not_mem_nil, or_false] at h
  push_neg at h
  obtain ⟨h1, h2, h3, h4, h5, h6, h7, h8, h9, h10, h11, h12, h13, h14, h15,
    h16, h17, h18, h19, h20, h21, h22, h23, h24, h25, h26, h27, h28, h29⟩ := h
  unfold evaluateOperator
  rw [if_neg h1, if_neg h2, if_neg h3, if_neg h4, if_neg h5, if_neg h6,
    if_neg h7, if_neg h8, if_neg h9, if_neg h10, if_neg h11, if_neg h12,
    if_neg h13, if_neg h14, if_neg h15, if_neg h16, if_neg h17, if_neg h18,
    if_neg h19, if_neg h20, if_neg h21, if_neg h22, if_neg h23, if_neg h24,
    if_neg h25, if_neg h26, if_neg h27, if_neg h28, if_neg h29]

/-- The validation loop is the per-assertion evaluation, slot by slot. -/
theorem validateAssertions_get? (as : List Assertion) (resp : HttpRequestResult)
    (j : Nat) :
    (validateAssertions as resp).get? j =
      (as.get? j).map (fun b => evalCaught b (mkResponseData resp)) := by
  simp [validateAssertions, List.get?_map, evalCaught]

/-- Validation is the per-assertion evaluation mapped over the list. -/
theorem validateAssertions_eq_map (as : List Assertion) (resp : HttpRequestResult) :
    validateAssertions as resp = as.map (fun a => evalCaught a (mkResponseData resp)) :=
  rfl

/-- Taking while a predicate holds walks through a prefix on which it holds
everywhere. -/
theorem takeWhile_append_all {p : Char → Bool} (l r : List Char)
    (h : ∀ c ∈ l, p c = true) :
    (l ++ r).takeWhile p = l ++ r.takeWhile p := by
  induction l with
  | nil => simp
  | cons c cs ih => simp_all [List.takeWhile_cons]

/-- Dropping while a predicate holds skips a prefix on which it holds
everywhere. -/
theorem dropWhile_append_all {p : Char → Bool} (l r : List Char)
    (h : ∀ c ∈ l, p c = true) :
    (l ++ r).dropWhile p = r.dropWhile p := by
  induction l with
  | nil => simp
  | cons c cs ih => simp_all [List.dropWhile_cons]

/-- The quoted-group matcher captures exactly the quote-free text between
the two quotes. -/
theorem eatQuoted_eval {x : List Char} (hx : ∀ c ∈ x, ¬(c = '"')) (r : List Char) :
    eatQuoted ('"' :: (x ++ '"' :: r)) = some (x, r) := by
  have hp : ∀ c ∈ x, (fun c => decide (c ≠ '"')) c = true := by
    intro c hc; simpa using hx c hc
  simp only [eatQuoted]
  rw [takeWhile_append_all x ('"' :: r) hp, dropWhile_append_all x ('"' :: r) hp]
  simp [List.takeWhile_cons]

/-- A suffix matching `\s*\)\s*$` cannot contain a quote character. -/
theorem closeParenTail_eq_false_of_quote {s : List Char} (h : '"' ∈ s) :
    closeParenTail s = false := by
  rcases hct : closeParenTail s with _ | _
  · rfl
  · exfalso
    unfold closeParenTail at hct
    rcases hdw : s.dropWhile isJsWs with _ | ⟨c, rest⟩ <;> rw [hdw] at hct
    · simp at hct
    · have hsplit : s = s.takeWhile isJsWs ++ (c :: rest) := by
        rw [← hdw, List.takeWhile_append_dropWhile]
      rw [hsplit] at h
      rcases List.mem_append.mp h with hm | hm
      · have := List.mem_takeWhile_imp hm
        simp [isJsWs] at this
      · by_cases hc : c = ')'
        · subst hc
          simp only [if_pos rfl] at hct
          rcases List.mem_cons.mp hm with hq | hq
          · exact absurd hq (by decide)
          · have := List.all_eq_true.mp hct _ hq
            simp [isJsWs] at this
        · revert hct
          split
          · rename_i rest2 heq
            injection heq with h1 h2
            exact fun _ => hc h1
          · exact fun hfalse => by simp at hfalse

/-- The lazy value group runs through any text up to a closing quote
followed by the final parenthesis: no earlier stop is possible because every
intermediate remainder still contains the closing quote. -/
theorem lazyValue_run_to_quote_close (o : List Char) :
    ∀ a, lazyValue a (o ++ ['"', ')']) = some ((a ++ o) ++ ['"']) := by
  induction o with
  | nil =>
      intro a
      simp [lazyValue, closeParenTail, List.dropWhile, isJsWs]
  | cons c cs ih =>
      intro a
      have hf : closeParenTail (cs ++ ['"', ')']) = false :=
        closeParenTail_eq_false_of_quote (by simp)
      simp only [List.cons_append, lazyValue, List.append_eq, hf,
        Bool.false_eq_true, if_false]
      rw [ih (a ++ [c])]
      simp

/-- The lazy value group applied to a double-quoted argument followed by the
closing parenthesis captures the whole quoted argument. -/
theorem lazyValue_quoted (o a : List Char) :
    lazyValue a ('"' :: (o ++ ['"', ')'])) = some (a ++ ('"' :: (o ++ ['"']))) := by
  have hf : closeParenTail (o ++ ['"', ')']) = false :=
    closeParenTail_eq_false_of_quote (by simp)
  simp only [lazyValue, List.append_eq, hf, Bool.false_eq_true, if_false]
  rw [lazyValue_run_to_quote_close o (a ++ ['"'])]
  simp

/-- With one space after the comma, the greedy whitespace run consumes the
space and the lazy group captures the quoted argument. -/
theorem wsThenLazy_space_quoted (o : List Char) :
    wsThenLazy (' ' :: '"' :: (o ++ ['"', ')'])) = some ('"' :: (o ++ ['"'])) := by
  simp [wsThenLazy, wsLazyAux, List.takeWhile_cons, isJsWs, lazyValue_quoted]

/-- A match at the first position is the leftmost match. -/
theorem scanMatch_pos {α : Type} (f : List Char → Option α) (s : List Char)
    {r : α} (h : f s = some r) : scanMatch f s = some r := by
  cases s <;> simp [scanMatch, h]

/-- If the position matcher fails at every non-`@` head and the input has no
`@` at all, the unanchored search fails. -/
theorem scanMatch_none_no_at {α : Type} (f : List Char → Option α)
    (hf : ∀ c t, c ≠ '@' → f (c :: t) = none) (hnil : f [] = none) :
    ∀ s, '@' ∉ s → scanMatch f s = none := by
  intro s
  induction s with
  | nil => intro _; simpa [scanMatch] using hnil
  | cons c rest ih =>
      intro hmem
      have hc : c ≠ '@' := fun hEq => hmem (hEq ▸ List.mem_cons_self c rest)
      have hrest : '@' ∉ rest := fun hEq => hmem (List.mem_cons_of_mem c hEq)
      simp [scanMatch, hf c rest hc, ih hrest]

/-- The 4-argument shape cannot match at a position that does not start with
`@`. -/
theorem tryShape4At_no_at (c : Char) (t : List Char) (hc : c ≠ '@') :
    tryShape4At (c :: t) = none := by
  simp [tryShape4At, eatLit, Ne.symm hc]

/-- Trimming a string that starts and ends with a quote changes nothing. -/
theorem jsTrim_quoted_stable (o : List Char) :
    jsTrim ⟨'"' :: (o ++ ['"'])⟩ = ⟨'"' :: (o ++ ['"'])⟩ := by
  simp [jsTrim, jsTrimL, List.dropWhile_cons, isJsWs, List.reverse_append]

/-- The expected-value parser on a double-quoted argument reaches the
quoted-string rule and strips the quotes. -/
theorem parseExpectedValue_quoted (o : List Char) :
    parseExpectedValue ⟨'"' :: (o ++ ['"'])⟩ = .str ⟨o⟩ := by
  have hnull : (⟨'"' :: (o ++ ['"'])⟩ : String) ≠ "null" := by
    intro hEq
    have hdata := congrArg String.data hEq
    rw [show ("null" : String).data = ['n', 'u', 'l', 'l'] from rfl] at hdata
    simp at hdata
  have htrue : (⟨'"' :: (o ++ ['"'])⟩ : String) ≠ "true" := by
    intro hEq
    have hdata := congrArg String.data hEq
    rw [show ("true" : String).data = ['t', 'r', 'u', 'e'] from rfl] at hdata
    simp at hdata
  have hfalse : (⟨'"' :: (o ++ ['"'])⟩ : String) ≠ "false" := by
    intro hEq
    have hdata := congrArg String.data hEq
    rw [show ("false" : String).data = ['f', 'a', 'l', 's', 'e'] from rfl] at hdata
    simp at hdata
  have hlast : ('"' :: (o ++ ['"'])).getLast? = some '"' := by
    rw [show '"' :: (o ++ ['"']) = ('"' :: o) ++ ['"'] from by simp]
    exact List.getLast?_concat _
  have hnum : numLitMatch ⟨'"' :: (o ++ ['"'])⟩ = false := by
    simp [numLitMatch, List.takeWhile_cons]
  have hre : regexLitMatch ⟨'"' :: (o ++ ['"'])⟩ = none := by
    simp [regexLitMatch]
  have harr : ¬((⟨'"' :: (o ++ ['"'])⟩ : String).data.head? = some '[' ∧
      (⟨'"' :: (o ++ ['"'])⟩ : String).data.getLast? = some ']') := by
    simp
  have hq : ((⟨'"' :: (o ++ ['"'])⟩ : String).data.head? = some '"' ∧
      (⟨'"' :: (o ++ ['"'])⟩ : String).data.getLast? = some '"') ∨
      ((⟨'"' :: (o ++ ['"'])⟩ : String).data.head? = some '\'' ∧
      (⟨'"' :: (o ++ ['"'])⟩ : String).data.getLast? = some '\'') :=
    Or.inl ⟨rfl, hlast⟩
  simp only [parseExpectedValue]
  rw [jsTrim_quoted_stable, if_neg hnull, if_neg htrue, if_neg hfalse,
    if_neg harr, hnum, hre]
  simp only [Bool.false_eq_true, if_false]
  rw [if_pos hq]
  simp [List.dropLast_concat]

/-! ### Claim theorems -/

/-- C1 (counterexample): the line `@assert("description", "expression",
"operator")` — exactly three double-quoted arguments and no value — is NOT
parsed as the 3-args-with-description shape.  The 3-args-with-value regex is
tried before the 3-args-with-description regex and its lazy value group also
matches a quoted third argument, so the actual parse has
expression = `description`, operator = `expression`, expected = the string
`operator`, and no description; the parse the claim describes is refuted. -/
theorem c1_counterexample_three_quoted_args :
    parseAssertionLine "@assert(\"description\", \"expression\", \"operator\")" =
      some { description := none, expression := "description",
             operator := "expression", expected := .str "operator" } ∧
    parseAssertionLine "@assert(\"description\", \"expression\", \"operator\")" ≠
      some { description := some "description", expression := "expression",
             operator := "operator", expected := JsValue.null } := by
  have hp : parseAssertionLine "@assert(\"description\", \"expression\", \"operator\")" =
      some { description := none, expression := "description",
             operator := "expression", expected := .str "operator" } := by
    with_unfolding_all rfl
  refine ⟨hp, ?_⟩
  rw [hp]
  intro hcontra
  simp [Assertion.mk.injEq] at hcontra

/-- C1 (amended): every line of the canonical form
`@assert("<d>", "<e>", "<o>")` — three double-quoted arguments whose texts
contain no quote and no `@` — is captured by the 3-args-with-value shape:
the resulting assertion has expression = the first argument (trimmed),
operator = the second argument (trimmed), expected = the third argument's
text as a string value, and no description; the 3-args-with-description
shape never receives such a line. -/
theorem c1_amended_three_quoted_args_parse (d e o : List Char)
    (hdq : ∀ c ∈ d, ¬(c = '"')) (hda : '@' ∉ d)
    (heq2 : ∀ c ∈ e, ¬(c = '"')) (hea : '@' ∉ e)
    (hoq : ∀ c ∈ o, ¬(c = '"')) (hoa : '@' ∉ o) :
    parseAssertionLine (mkThreeArgLine d e o) =
      some { description := none, expression := jsTrim ⟨d⟩, operator := jsTrim ⟨e⟩,
             expected := .str ⟨o⟩ } := by
  have hline : (mkThreeArgLine d e o).data =
      '@' :: 'a' :: 's' :: 's' :: 'e' :: 'r' :: 't' :: '(' :: '"' ::
        (d ++ ('"' :: ',' :: ' ' :: '"' ::(e ++ ('"' :: ',' :: ' ' :: '"' ::(o ++ ['"', ')']))))) := by
    with_unfolding_all rfl
  have hsep : ∀ X : List Char, '@' ∉ X → '@' ∉ ('"' :: ',' :: ' ' :: '"' ::X) := by
    intro X hX h
    rcases List.mem_cons.mp h with h | h
    · exact absurd h (by decide)
    rcases List.mem_cons.mp h with h | h
    · exact absurd h (by decide)
    rcases List.mem_cons.mp h with h | h
    · exact absurd h (by decide)
    rcases List.mem_cons.mp h with h | h
    · exact absurd h (by decide)
    exact hX h
  have happ : ∀ X Y : List Char, '@' ∉ X → '@' ∉ Y → '@' ∉ X ++ Y := by
    intro X Y hX hY h
    rcases List.mem_append.mp h with h | h
    exacts [hX h, hY h]
  have hAt : '@' ∉ (d ++ ('"' :: ',' :: ' ' :: '"' ::(e ++ ('"' :: ',' :: ' ' :: '"' ::(o ++ ['"', ')']))))) :=
    happ _ _ hda (hsep _ (happ _ _ hea (hsep _ (happ _ _ hoa (by decide)))))
  have h4fail : tryShape4At ('@' :: 'a' :: 's' :: 's' :: 'e' :: 'r' :: 't' :: '(' :: '"' ::
      (d ++ ('"' :: ',' :: ' ' :: '"' ::(e ++ ('"' :: ',' :: ' ' :: '"' ::(o ++ ['"', ')'])))))) = none := by
    simp [tryShape4At, eatLit, eatWs, isJsWs,
      eatQuoted_eval hdq, eatQuoted_eval heq2, eatQuoted_eval hoq]
  have hwvpos : tryShapeWithValueAt ('@' :: 'a' :: 's' :: 's' :: 'e' :: 'r' :: 't' :: '(' :: '"' ::
      (d ++ ('"' :: ',' :: ' ' :: '"' ::(e ++ ('"' :: ',' :: ' ' :: '"' ::(o ++ ['"', ')'])))))) =
      some (⟨d⟩, ⟨e⟩, ⟨'"' :: (o ++ ['"'])⟩) := by
    simp [tryShapeWithValueAt, eatLit, eatWs, isJsWs,
      eatQuoted_eval hdq, eatQuoted_eval heq2, wsThenLazy_space_quoted]
  have h4 : scanMatch tryShape4At (mkThreeArgLine d e o).data = none := by
    rw [hline]
    simp only [scanMatch, h4fail, tryShape4At_no_at]
    exact scanMatch_none_no_at _ tryShape4At_no_at rfl _ hAt
  have hwv : scanMatch tryShapeWithValueAt (mkThreeArgLine d e o).data =
      some (⟨d⟩, ⟨e⟩, ⟨'"' :: (o ++ ['"'])⟩) := by
    rw [hline]
    exact scanMatch_pos _ _ hwvpos
  simp only [parseAssertionLine, h4, hwv]
  rw [jsTrim_quoted_stable, parseExpectedValue_quoted]

/-- Witness for C1 (amended) at the claim's own argument texts. -/
theorem c1_amended_three_quoted_args_parse_witness :
    parseAssertionLine (mkThreeArgLine "description".data "expression".data "operator".data) =
      some { description := none, expression := jsTrim ⟨"description".data⟩,
             operator := jsTrim ⟨"expression".data⟩,
             expected := .str ⟨"operator".data⟩ } :=
  c1_amended_three_quoted_args_parse "description".data "expression".data "operator".data
    (by decide) (by decide) (by decide) (by decide) (by decide) (by decide)

/-- C2: the line `@assert("desc", "res.status", "equals", 200)` parses as the
4-argument shape — description `"desc"`, expression `"res.status"`, operator
`"equals"`, expected number 200 — even though the 3-arg-with-value pattern
also matches this line (second conjunct: it would have captured `"desc"` as
the expression and the rest as the value); the parser tries the shapes from
most arguments to fewest, so the 4-argument parse wins. -/
theorem c2_four_arg_precedence :
    parseAssertionLine "@assert(\"desc\", \"res.status\", \"equals\", 200)" =
      some { description := some "desc", expression := "res.status",
             operator := "equals", expected := .num 200 } ∧
    scanMatch tryShapeWithValueAt
        ("@assert(\"desc\", \"res.status\", \"equals\", 200)").data =
      some ("desc", "res.status", "\"equals\", 200") :=
  ⟨by with_unfolding_all rfl, by with_unfolding_all rfl⟩

/-- C4: expression resolution is total by construction (`resolveSteps` is a
Lean function) and never throws; if the current value is `null` or
`undefined` at any step of the walk, resolution returns `undefined`;
resolving through a missing property returns `undefined`; a bracket index
into a non-array, or an out-of-range index, returns `undefined`; and a valid
index returns the element's value. -/
theorem c4_resolution_never_throws (parts : List String) (hp : parts ≠ []) :
    resolveSteps .null parts = .undefined ∧
    resolveSteps .undefined parts = .undefined ∧
    resolveExpression "res.body.nonexistent.deep" (mkResponseData respEmptyObj) = .undefined ∧
    resolveExpression "res.body.users[1].name" (mkResponseData respUsers) = .str "b" ∧
    resolveExpression "res.body.users[5].name" (mkResponseData respUsers) = .undefined ∧
    resolveExpression "res.body.users[0]" (mkResponseData respObjUsers) = .undefined := by
  obtain ⟨p, ps, rfl⟩ : ∃ p ps, parts = p :: ps := by
    cases parts with
    | nil => exact absurd rfl hp
    | cons p ps => exact ⟨p, ps, rfl⟩
  exact ⟨rfl, rfl, by with_unfolding_all rfl, by with_unfolding_all rfl,
    by with_unfolding_all rfl, by with_unfolding_all rfl⟩

/-- Witness for C4 at the one-part path `["x"]`. -/
theorem c4_resolution_never_throws_witness :
    resolveSteps .null ["x"] = .undefined ∧
    resolveSteps .undefined ["x"] = .undefined ∧
    resolveExpression "res.body.nonexistent.deep" (mkResponseData respEmptyObj) = .undefined ∧
    resolveExpression "res.body.users[1].name" (mkResponseData respUsers) = .str "b" ∧
    resolveExpression "res.body.users[5].name" (mkResponseData respUsers) = .undefined ∧
    resolveExpression "res.body.users[0]" (mkResponseData respObjUsers) = .undefined :=
  c4_resolution_never_throws ["x"] (by simp)

/-- C6 (failing input): on content whose first comment block is
`@assert`-free and whose second block carries the `@assert`, the removal
regex `\/\*[\s\S]*?@assert[\s\S]*?\*\//` matches from the FIRST `/*` through
the end of the second block, because its first lazy run crosses the `*/` of
the first block on the way to the first `@assert`.  The output is `"end"`:
the `@assert`-free block `/* plain */` and the plain text ` mid ` between
the blocks are deleted as well, contradicting the claim that exactly the
`@assert`-bearing blocks are removed and all other text is preserved (which
would give `"/* plain */ mid  end"`, up to the final trim). -/
theorem c6_remove_blocks_overreach :
    removeAssertionBlocks c6Input = "end" ∧
    removeAssertionBlocks c6Input ≠ "/* plain */ mid  end" := by
  have he : removeAssertionBlocks c6Input = "end" := by with_unfolding_all rfl
  exact ⟨he, by rw [he]; decide⟩

/-- C7: the numeric comparison operators `gt`, `gte`, `lt`, `lte` never
throw (they always return a boolean), return `true` exactly when both
operands are numbers and the arithmetic comparison holds, and in particular
`gt` with the string `"5"` against the number 3 returns `false` rather than
erroring. -/
theorem c7_numeric_comparisons (a e : JsValue) :
    (∃ b, evaluateOperator "gt" a e = .ok b) ∧
    (∃ b, evaluateOperator "gte" a e = .ok b) ∧
    (∃ b, evaluateOperator "lt" a e = .ok b) ∧
    (∃ b, evaluateOperator "lte" a e = .ok b) ∧
    (evaluateOperator "gt" a e = .ok true ↔ ∃ x y, a = .num x ∧ e = .num y ∧ x > y) ∧
    (evaluateOperator "gte" a e = .ok true ↔ ∃ x y, a = .num x ∧ e = .num y ∧ x ≥ y) ∧
    (evaluateOperator "lt" a e = .ok true ↔ ∃ x y, a = .num x ∧ e = .num y ∧ x < y) ∧
    (evaluateOperator "lte" a e = .ok true ↔ ∃ x y, a = .num x ∧ e = .num y ∧ x ≤ y) ∧
    evaluateOperator "gt" (.str "5") (.num 3) = .ok false := by
  have hgt : evaluateOperator "gt" a e =
      .ok (numCmpSem (fun x y => decide (x > y)) a e) := by with_unfolding_all rfl
  have hgte : evaluateOperator "gte" a e =
      .ok (numCmpSem (fun x y => decide (x ≥ y)) a e) := by with_unfolding_all rfl
  have hlt : evaluateOperator "lt" a e =
      .ok (numCmpSem (fun x y => decide (x < y)) a e) := by with_unfolding_all rfl
  have hlte : evaluateOperator "lte" a e =
      .ok (numCmpSem (fun x y => decide (x ≤ y)) a e) := by with_unfolding_all rfl
  refine ⟨⟨_, hgt⟩, ⟨_, hgte⟩, ⟨_, hlt⟩, ⟨_, hlte⟩, ?_, ?_, ?_, ?_,
    by with_unfolding_all rfl⟩
  · rw [hgt]; cases a <;> cases e <;> simp [numCmpSem]
  · rw [hgte]; cases a <;> cases e <;> simp [numCmpSem]
  · rw [hlt]; cases a <;> cases e <;> simp [numCmpSem]
  · rw [hlte]; cases a <;> cases e <;> simp [numCmpSem]

/-- C8: the expected-value literal parser is total by construction and tries
its rules in the order null, booleans, JSON array, number, regex, quoted
string, verbatim fallback, returning on the first match: the four round-trip
examples of the claim, plus: a malformed array falls through to the verbatim
string, an invalid regex pattern (here `(`; also rejected by the RegExp
constructor) falls through to the string rules, and unmatched input comes
back verbatim. -/
theorem c8_expected_value_literals :
    parseExpectedValue "[1,2,3]" = .arr [.num 1, .num 2, .num 3] ∧
    parseExpectedValue "\"abc\"" = .str "abc" ∧
    parseExpectedValue "true" = .bool true ∧
    parseExpectedValue "/^a.*z$/i" = .regexp "^a.*z$" "i" ∧
    reTest "^a.*z$" "i" "abcz" = true ∧
    reTest "^a.*z$" "i" "ABCZ" = true ∧
    parseExpectedValue "[1, 2,]" = .str "[1, 2,]" ∧
    parseExpectedValue "/(/" = .str "/(/" ∧
    reValid "(" = false ∧
    parseExpectedValue "null" = .null ∧
    parseExpectedValue "false" = .bool false ∧
    parseExpectedValue "-12.5" = .num (-12.5) ∧
    parseExpectedValue "hello world" = .str "hello world" :=
  ⟨by with_unfolding_all rfl, by with_unfolding_all rfl, by with_unfolding_all rfl,
   by with_unfolding_all rfl, by with_unfolding_all rfl, by with_unfolding_all rfl,
   by with_unfolding_all rfl, by with_unfolding_all rfl, by with_unfolding_all rfl,
   by with_unfolding_all rfl, by with_unfolding_all rfl, by with_unfolding_all rfl,
   by with_unfolding_all rfl⟩

/-- C10: an empty or whitespace-only raw body normalizes to `null` (not the
raw string), so `res.body` resolves to `null`, an `isNull` assertion on it
passes, and an `equals ""` assertion on it fails. -/
theorem c10_blank_body_is_null (body : String) (h : jsTrim body = "") :
    parseResponseBody body = .null ∧
    resolveExpression "res.body"
      (mkResponseData { statusCode := 200, headers := [], body := body }) = .null ∧
    (validateAssertions [aIsNullBody, aEqEmptyBody]
        { statusCode := 200, headers := [], body := body }).map
      (fun r => r.passed) = [true, false] := by
  have hb : parseResponseBody body = .null := by simp [parseResponseBody, h]
  have hrd : mkResponseData { statusCode := 200, headers := [], body := body } =
      .obj [("status", .num 200), ("headers", .obj []), ("body", .null)] := by
    simp [mkResponseData, hb]
  refine ⟨hb, ?_, ?_⟩
  · simp only [resolveExpression, hrd]
    with_unfolding_all rfl
  · rw [validateAssertions_eq_map, hrd]
    with_unfolding_all rfl

/-- C3 (counterexample to the claimed cardinality): the operator switch of
`evaluateOperator` enumerates 29 operator names, not 27 as the claim
says. -/
theorem c3_counterexample_operator_count :
    knownOperators.length = 29 ∧ knownOperators.length ≠ 27 :=
  ⟨rfl, by decide⟩

/-- C3 (amended: the enumerated set has 29 operators): an assertion whose
operator name is outside the enumerated operator set yields a result with
`passed = false` and the unknown-operator message recorded in the error
field, and every assertion in the list is still evaluated and reported in
its own slot (the result list has one entry per assertion, each entry being
exactly the evaluation of its own assertion), so one erroring assertion
never prevents the others from being evaluated. -/
theorem c3_unknown_operator_isolated (assertions : List Assertion)
    (response : HttpRequestResult) (i : Nat) (a : Assertion)
    (ha : assertions.get? i = some a) (hop : a.operator ∉ knownOperators) :
    (validateAssertions assertions response).length = assertions.length ∧
    ((validateAssertions assertions response).get? i).map
        (fun r => (r.passed, r.error)) =
      some (false, some ("Unknown operator: " ++ a.operator)) ∧
    ∀ j b, assertions.get? j = some b →
      (validateAssertions assertions response).get? j =
        some (evalCaught b (mkResponseData response)) := by
  refine ⟨validateAssertions_length _ _, ?_, ?_⟩
  · rw [validateAssertions_get?, ha]
    have he : evaluateAssertion a (mkResponseData response) =
        .error ("Unknown operator: " ++ a.operator) := by
      simp [evaluateAssertion, evaluateOperator_unknown _ _ _ hop]
    simp [evalCaught, he]
  · intro j b hb
    rw [validateAssertions_get?, hb]
    rfl

/-- Witness for C3: the unknown operator `bogus` in slot 0 of a two-element
list errors while slot 1 is still evaluated. -/
theorem c3_unknown_operator_isolated_witness :
    (validateAssertions [aBogus, aEq200] resp200).length = [aBogus, aEq200].length ∧
    ((validateAssertions [aBogus, aEq200] resp200).get? 0).map
        (fun r => (r.passed, r.error)) =
      some (false, some ("Unknown operator: " ++ aBogus.operator)) ∧
    ∀ j b, [aBogus, aEq200].get? j = some b →
      (validateAssertions [aBogus, aEq200] resp200).get? j =
        some (evalCaught b (mkResponseData resp200)) :=
  c3_unknown_operator_isolated [aBogus, aEq200] resp200 0 aBogus rfl (by decide)

/-- C5 (counterexample): with the unknown operator `bogus` on expression
`res.status`, resolution succeeds — the expression resolves to the defined
number 200 — yet the recorded result carries no actualValue at all, because
the catch block that handles the thrown unknown-operator error builds the
result without that field.  This contradicts the claim that actualValue is
present whenever expression resolution succeeded and absent only if
resolution itself failed. -/
theorem c5_counterexample_thrown_eval_drops_actual :
    resolveExpression aBogus.expression (mkResponseData resp200) = .num 200 ∧
    (validateAssertions [aBogus] resp200).map
        (fun r => (r.actualValue, r.error, r.passed)) =
      [(none, some "Unknown operator: bogus", false)] :=
  ⟨by with_unfolding_all rfl, by with_unfolding_all rfl⟩

/-- C5 (amended): actualValue is recorded exactly when evaluation did not
throw — in that case it holds the resolved value, even for a failing
assertion — and when evaluation threw, the error message is recorded,
`passed` is false, and actualValue is absent even if resolution succeeded. -/
theorem c5_result_field_invariants (as : List Assertion) (resp : HttpRequestResult)
    (r : AssertionResult) (hr : r ∈ validateAssertions as resp) :
    (r.error = none →
      r.actualValue =
        some (resolveExpression r.assertion.expression (mkResponseData resp))) ∧
    (∀ e, r.error = some e → r.passed = false ∧ r.actualValue = none) := by
  rw [validateAssertions_eq_map] at hr
  obtain ⟨a, _, rfl⟩ := List.mem_map.mp hr
  rcases hop : evaluateOperator a.operator
      (resolveExpression a.expression (mkResponseData resp)) a.expected with m | p
  · have hec : evalCaught a (mkResponseData resp) =
        { assertion := a, passed := false, error := some m } := by
      simp [evalCaught, evaluateAssertion, hop]
    rw [hec]
    exact ⟨fun hne => by simp at hne, fun e _ => ⟨rfl, rfl⟩⟩
  · have hec : evalCaught a (mkResponseData resp) =
        { assertion := a, passed := p,
          actualValue := some (resolveExpression a.expression (mkResponseData resp)) } := by
      simp [evalCaught, evaluateAssertion, hop]
    rw [hec]
    exact ⟨fun _ => rfl, fun e he => by simp at he⟩

/-- Witness for C5 (amended) at the passing `equals` result for status 200. -/
theorem c5_result_field_invariants_witness :
    (wRes.error = none →
      wRes.actualValue =
        some (resolveExpression wRes.assertion.expression (mkResponseData resp200))) ∧
    (∀ e, wRes.error = some e → wRes.passed = false ∧ wRes.actualValue = none) :=
  c5_result_field_invariants [aEq200] resp200 wRes (by
    rw [show validateAssertions [aEq200] resp200 = [wRes] from by with_unfolding_all rfl]
    exact List.mem_singleton.mpr rfl)

/-- C9: formatting an empty result list yields the empty string; a non-empty
list renders as the header, one line per result, and a final
`<passed>/<total> assertions passed` summary; a failed `equals` with
expected `"foo"` and actual `"bar"` renders both quoted values on its line;
and a unary operator's line omits the expected value. -/
theorem c9_formatter_output (results : List AssertionResult) (hne : results ≠ []) :
    formatAssertionResults [] = "" ∧
    (∃ mid, formatAssertionResults results =
      "\n=== ASSERTIONS ===\n" ++ mid ++ "\n" ++
      toString (results.filter (fun r => r.passed)).length ++ "/" ++
      toString results.length ++ " assertions passed") ∧
    formatAssertionResults [rFooBar] =
      "\n=== ASSERTIONS ===\n✗ res.body.name equals \"foo\" (actual: \"bar\")\n\n0/1 assertions passed" ∧
    formatAssertionResults [rIsNull] =
      "\n=== ASSERTIONS ===\n✓ res.body isNull\n\n1/1 assertions passed" := by
  refine ⟨rfl, ?_, by with_unfolding_all rfl, by with_unfolding_all rfl⟩
  refine ⟨String.join (results.map (fun r => formatResultLine r ++ "\n")), ?_⟩
  unfold formatAssertionResults
  rw [if_neg (fun h0 => hne (List.length_eq_zero.mp h0))]

/-- Witness for C9 at the one-element failed-equals list. -/
theorem c9_formatter_output_witness :
    formatAssertionResults [] = "" ∧
    (∃ mid, formatAssertionResults [rFooBar] =
      "\n=== ASSERTIONS ===\n" ++ mid ++ "\n" ++
      toString ([rFooBar].filter (fun r => r.passed)).length ++ "/" ++
      toString ([rFooBar] : List AssertionResult).length ++ " assertions passed") ∧
    formatAssertionResults [rFooBar] =
      "\n=== ASSERTIONS ===\n✗ res.body.name equals \"foo\" (actual: \"bar\")\n\n0/1 assertions passed" ∧
    formatAssertionResults [rIsNull] =
      "\n=== ASSERTIONS ===\n✓ res.body isNull\n\n1/1 assertions passed" :=
  c9_formatter_output [rFooBar] (by simp)

/-- Witness for C10 at the whitespace body `" \n "`. -/
theorem c10_blank_body_is_null_witness :
    jsTrim " \n " = "" ∧
    (parseResponseBody " \n " = .null ∧
      resolveExpression "res.body"
        (mkResponseData { statusCode := 200, headers := [], body := " \n " }) = .null ∧
      (validateAssertions [aIsNullBody, aEqEmptyBody]
          { statusCode := 200, headers := [], body := " \n " }).map
        (fun r => r.passed) = [true, false]) :=
  ⟨by with_unfolding_all rfl, c10_blank_body_is_null " \n " (by with_unfolding_all rfl)⟩

end CursorToys
